import Mathlib

/-!
Shallow embedding of the `config` package of the `dry` repository: the decode
hook (`stringSliceToStringMapHookFunc`), the reflective struct-to-flag walk
(`parseStructToFlags` / `InitFlags`), the environment-variable transliteration
configured in `New`, `ReadFromFile`, and `Unmarshal`.

Conventions:
* Go functions that can either return normally, return an error, or panic are
  given the result type `Res`: `ok` for a normal return, `err` for a returned
  `error`, `fatal` for a `panic` (process abort).
* Go maps built by the hook are represented as association lists with unique
  keys; `mapInsert` is the Go assignment `m[k] = v` (overwrite in place,
  append when the key is new).
* Go `reflect.Type` is modelled by `RType` (a kind plus the kind of the
  element type, when one exists) for the hook, and by `CType` (full recursive
  structure) for the struct walk, which only ever inspects kinds and fields.
-/

namespace Dry

/-- Outcome of a Go call: normal value, returned `error`, or `panic`. -/
inductive Res (α : Type) where
  | ok (a : α)
  | err (msg : String)
  | fatal (msg : String)
deriving DecidableEq, Repr

/-- `true` exactly on a returned (non-nil) error. -/
def isErrRes {α : Type} : Res α → Bool
  | Res.err _ => true
  | _ => false

/-- `true` exactly on a panic / process abort. -/
def isFatalRes {α : Type} : Res α → Bool
  | Res.fatal _ => true
  | _ => false

/-- `true` exactly on `Except.error`. -/
def isExceptError {α : Type} : Except String α → Bool
  | Except.error _ => true
  | Except.ok _ => false

/-- Association-list lookup: value of the first pair whose key is `k`. -/
def lookupKV (l : List (String × String)) (k : String) : Option String :=
  (l.find? (fun p => p.1 == k)).map (fun p => p.2)

/-- Go map assignment `m[k] = v` on the association-list representation:
overwrite the first pair with key `k` in place, or append when absent. -/
def mapInsert : List (String × String) → String → String → List (String × String)
  | [], k, v => [(k, v)]
  | (k0, v0) :: rest, k, v =>
    if k0 == k then (k0, v) :: rest else (k0, v0) :: mapInsert rest k v

/-! ## The decode hook (`pkg/config/hooks.go`) -/

/-- The subset of `reflect.Kind` the hook inspects. -/
inductive RKind where
  | rstring
  | rslice
  | rmap
  | rother (k : String)
deriving DecidableEq, Repr

/-- A Go `reflect.Type` as far as the hook looks at it: its kind, and the kind
of its element type (`Elem()`, the value type for maps), when it has one. -/
structure RType where
  kind : RKind
  elemKind : Option RKind
deriving DecidableEq, Repr

/-- The runtime values the hook can receive (`data interface{}`). -/
inductive GoValue where
  | vstrSlice (l : List String)
  | vstrMap (m : List (String × String))
  | vother (tag : String)
deriving DecidableEq, Repr

/-- Split a character list at the first `'='`: `none` when there is no `'='`,
otherwise the characters before it and the characters after it. -/
def splitFirstEqChars : List Char → Option (List Char × List Char)
  | [] => none
  | c :: cs =>
    if c = '=' then some ([], cs)
    else
      match splitFirstEqChars cs with
      | none => none
      | some (a, b) => some (c :: a, b)

/-- Go `strings.SplitN(s, "=", 2)`: `[s]` when `s` has no `'='`, otherwise the
part before the first `'='` and everything after it. -/
def goSplitN2Eq (s : String) : List String :=
  match splitFirstEqChars s.data with
  | none => [s]
  | some (a, b) => [String.mk a, String.mk b]

/-- The loop body of the hook: for each element `s`, split on the first `'='`;
a split that does not yield exactly two parts returns the error
`"Invalid format for input " ++ s`; otherwise assign `m[key] = value`. -/
def goBuildMapLoop : List (String × String) → List String → Except String (List (String × String))
  | m, [] => Except.ok m
  | m, s :: rest =>
    match goSplitN2Eq s with
    | [k, v] => goBuildMapLoop (mapInsert m k v) rest
    | _ => Except.error ("Invalid format for input " ++ s)

/-- The hook's type guard: source is a slice of strings and target is a map
with string values (`f.Kind() == Slice && f.Elem().Kind() == String &&
t.Kind() == Map && t.Elem().Kind() == String`; the source negates this to
return early). -/
def hookTypesMatch (f t : RType) : Bool :=
  f.kind == RKind.rslice && f.elemKind == some RKind.rstring &&
    t.kind == RKind.rmap && t.elemKind == some RKind.rstring

/-- `stringSliceToStringMapHookFunc` from `pkg/config/hooks.go`: identity on
any non-matching type pair; otherwise assert `data` is a `[]string` (a Go
type-assertion panic when it is not) and build the map element by element. -/
def stringSliceToStringMapHookFunc (f t : RType) (data : GoValue) : Res GoValue :=
  if hookTypesMatch f t then
    match data with
    | GoValue.vstrSlice sl =>
      match goBuildMapLoop [] sl with
      | Except.error e => Res.err e
      | Except.ok m => Res.ok (GoValue.vstrMap m)
    | _ => Res.fatal "interface conversion: data is not a []string"
  else
    Res.ok data

/-- The `reflect.Type` of `[]string`. -/
def typeStringSlice : RType := { kind := RKind.rslice, elemKind := some RKind.rstring }

/-- The `reflect.Type` of `map[string]string`. -/
def typeStringMap : RType := { kind := RKind.rmap, elemKind := some RKind.rstring }

/-- Does the string contain at least one `'='`? -/
def hasEqB (s : String) : Bool := s.data.contains '='

/-- Number of `'='` characters in a string (used to state the claim's
"exactly one `=`" condition). -/
def countEq (s : String) : Nat := s.data.count '='

/-- First element of the list that contains no `'='`, if any. -/
def firstNoEq (sl : List String) : Option String := sl.find? (fun s => !(hasEqB s))

/-- Splitting a string at its first `'='` into key and value (the spec's
wording); `none` when there is no `'='`. -/
def splitFirstEq (s : String) : Option (String × String) :=
  match splitFirstEqChars s.data with
  | none => none
  | some (a, b) => some (String.mk a, String.mk b)

/-- Fold the hook's per-element map assignment over a list, starting from a
given map and skipping elements without `'='`. -/
def buildFrom (m : List (String × String)) (sl : List String) : List (String × String) :=
  sl.foldl
    (fun acc s =>
      match splitFirstEq s with
      | some p => mapInsert acc p.1 p.2
      | none => acc)
    m

/-- The map the hook produces on an error-free input list. -/
def goBuildMapTotal (sl : List String) : List (String × String) := buildFrom [] sl

/-- The key/value pairs obtained by splitting each element at its first `'='`
(elements without `'='` contribute nothing). -/
def specPairs (sl : List String) : List (String × String) := sl.filterMap splitFirstEq

/-- The spec's "last write wins" reading of the produced mapping: the value at
`k` is the value of the last pair of `specPairs sl` whose key is `k`. -/
def specLastWins (sl : List String) (k : String) : Option String :=
  ((specPairs sl).reverse.find? (fun p => p.1 == k)).map (fun p => p.2)

/-! ## The struct walk (`parseStructToFlags`, `InitFlags`, `Unmarshal`) -/

mutual

/-- The types the struct walk distinguishes: the `reflect.Kind` of a field,
carrying the fields of a nested struct. `tslice` and `tmap` stand for any
slice / map kind (the walk dispatches on the kind alone); `tother` is any
kind outside the walk's `switch` (channels, functions, `int8`, ...). -/
inductive CType where
  | tstring
  | tbool
  | tuint
  | tuint64
  | tint
  | tint64
  | tfloat64
  | tslice
  | tmap
  | tstruct (fields : List CField)
  | tother (kindName : String)

/-- A struct field as the walk sees it: the `name`, `description` and `short`
tags, and the field's type. -/
inductive CField where
  | mk (nameTag descTag shortTag : String) (typ : CType)

end

/-- The `name` tag of a field. -/
def CField.nameTag : CField → String
  | CField.mk n _ _ _ => n

/-- Default value a registered flag carries, by kind. -/
inductive FlagDefault where
  | dstr (s : String)
  | dbool (b : Bool)
  | duint (n : Nat)
  | duint64 (n : Nat)
  | dint (n : Int)
  | dint64 (n : Int)
  | dfloat64 (n : Int)
  | dstrSlice (l : List String)
deriving DecidableEq, Repr

/-- A registered `pflag` flag: dotted name, one-character shorthand, default
value, and help text. -/
structure PFlag where
  name : String
  shorthand : String
  defVal : FlagDefault
  usage : String
deriving DecidableEq, Repr

/-- `true` exactly on struct kinds. -/
def isStructType : CType → Bool
  | CType.tstruct _ => true
  | _ => false

/-- The nine kinds registered directly as flags. -/
def isPrimitiveKind : CType → Bool
  | CType.tstring => true
  | CType.tbool => true
  | CType.tuint => true
  | CType.tuint64 => true
  | CType.tint => true
  | CType.tint64 => true
  | CType.tfloat64 => true
  | CType.tslice => true
  | CType.tmap => true
  | _ => false

/-- The name-joining step of the walk: `if prefix != "" { name = prefix + "." + name }`. -/
def joinNameGo (pfx tag : String) : String :=
  if pfx != "" then pfx ++ "." ++ tag else tag

/-- `parseStructToFlags` from `pkg/config/config.go` (full version): walk the
fields in order; skip unnamed (or `-`-named) non-struct fields; register one
flag per primitive-kind field (`StringP(name, short, "", desc)`,
`BoolP(..., false, ...)`, the integer and float kinds with default `0`,
`StringSliceP(..., nil, ...)` for both slice and map kinds); recurse into
struct kinds with the computed name as the new prefix; panic
(`Except.error`) on any other kind. The returned list is the sequence of
flags registered on `mgr.flags`. -/
def parseStructToFlags : String → List CField → Except String (List PFlag)
  | _, [] => Except.ok []
  | pfx, CField.mk tag desc short typ :: rest =>
    if (tag == "" || tag == "-") && !(isStructType typ) then
      parseStructToFlags pfx rest
    else
      match typ with
      | CType.tstring =>
        (parseStructToFlags pfx rest).map
          (fun fs => { name := joinNameGo pfx tag, shorthand := short,
                       defVal := FlagDefault.dstr "", usage := desc } :: fs)
      | CType.tbool =>
        (parseStructToFlags pfx rest).map
          (fun fs => { name := joinNameGo pfx tag, shorthand := short,
                       defVal := FlagDefault.dbool false, usage := desc } :: fs)
      | CType.tuint =>
        (parseStructToFlags pfx rest).map
          (fun fs => { name := joinNameGo pfx tag, shorthand := short,
                       defVal := FlagDefault.duint 0, usage := desc } :: fs)
      | CType.tuint64 =>
        (parseStructToFlags pfx rest).map
          (fun fs => { name := joinNameGo pfx tag, shorthand := short,
                       defVal := FlagDefault.duint64 0, usage := desc } :: fs)
      | CType.tint =>
        (parseStructToFlags pfx rest).map
          (fun fs => { name := joinNameGo pfx tag, shorthand := short,
                       defVal := FlagDefault.dint 0, usage := desc } :: fs)
      | CType.tint64 =>
        (parseStructToFlags pfx rest).map
          (fun fs => { name := joinNameGo pfx tag, shorthand := short,
                       defVal := FlagDefault.dint64 0, usage := desc } :: fs)
      | CType.tfloat64 =>
        (parseStructToFlags pfx rest).map
          (fun fs => { name := joinNameGo pfx tag, shorthand := short,
                       defVal := FlagDefault.dfloat64 0, usage := desc } :: fs)
      | CType.tslice =>
        (parseStructToFlags pfx rest).map
          (fun fs => { name := joinNameGo pfx tag, shorthand := short,
                       defVal := FlagDefault.dstrSlice [], usage := desc } :: fs)
      | CType.tmap =>
        (parseStructToFlags pfx rest).map
          (fun fs => { name := joinNameGo pfx tag, shorthand := short,
                       defVal := FlagDefault.dstrSlice [], usage := desc } :: fs)
      | CType.tstruct children =>
        match parseStructToFlags (joinNameGo pfx tag) children with
        | Except.error e => Except.error e
        | Except.ok fs =>
          match parseStructToFlags pfx rest with
          | Except.error e => Except.error e
          | Except.ok rs => Except.ok (fs ++ rs)
      | CType.tother k => Except.error ("Unknown type in config: " ++ k)

/-- `viper.BindPFlags` as used by `InitFlags`: it binds each flag of the set
by name and, per viper's `BindFlagValue`, can only return an error when
handed a nil flag value — which `pflag`'s `VisitAll` never produces. On the
flag lists built here it therefore always succeeds; `InitFlags` still checks
its result and panics on an error, mirroring the source. -/
def bindPFlags (_flags : List PFlag) : Except String Unit := Except.ok ()

/-- `InitFlags` from the source: panic when the description is not a struct;
walk it (the walk itself panics on unsupported named kinds); bind the flags
to viper, panicking if that binding errors; otherwise return `nil`. -/
def initFlags (cfg : CType) : Res Unit :=
  match cfg with
  | CType.tstruct fields =>
    match parseStructToFlags "" fields with
    | Except.error e => Res.fatal e
    | Except.ok flags =>
      match bindPFlags flags with
      | Except.error e => Res.fatal e
      | Except.ok _ => Res.ok ()
  | _ => Res.fatal "configuration is not a struct"

/-- `Unmarshal` from the source: build a `mapstructure` decoder (whose
construction error is returned), then run `decoder.Decode(mgr.viper.AllSettings())`
— whose result the source DISCARDS (the statement's value is not assigned) —
and return `nil`. `mkDecoderRes` stands for the outcome of
`mapstructure.NewDecoder`, `decodeRes` for the outcome of `decoder.Decode`
on the merged settings. -/
def unmarshal (mkDecoderRes : Except String Unit) (decodeRes : Except String Unit) : Res Unit :=
  match mkDecoderRes with
  | Except.error e => Res.err e
  | Except.ok _ =>
    match decodeRes with
    | _ => Res.ok ()

/-- Does the walk, started on these fields, reach a field it panics on: a
field whose kind is outside the supported set and whose `name` tag is
neither empty nor `-` (unnamed non-struct fields are skipped before the
kind switch; struct kinds are searched recursively)? -/
def hasUnsupportedField : List CField → Bool
  | [] => false
  | CField.mk tag _ _ typ :: rest =>
    (if (tag == "" || tag == "-") && !(isStructType typ) then false
     else
       match typ with
       | CType.tother _ => true
       | CType.tstruct children => hasUnsupportedField children
       | _ => false)
    || hasUnsupportedField rest

/-- Lift `hasUnsupportedField` to the root description. -/
def hasUnsupportedFieldTop : CType → Bool
  | CType.tstruct fields => hasUnsupportedField fields
  | _ => false

/-- Character-list version of "is a prefix of". -/
def listPre : List Char → List Char → Bool
  | [], _ => true
  | _ :: _, [] => false
  | a :: as, b :: bs => a == b && listPre as bs

/-- `p` is a leading substring of `s`. -/
def strStartsWith (p s : String) : Bool := listPre p.data s.data

/-- The documented default for each supported primitive kind: empty string,
`false`, zero, or empty sequence (the value returned for non-primitive
kinds is irrelevant — every use is guarded by `isPrimitiveKind`). -/
def primDefault : CType → FlagDefault
  | CType.tstring => FlagDefault.dstr ""
  | CType.tbool => FlagDefault.dbool false
  | CType.tuint => FlagDefault.duint 0
  | CType.tuint64 => FlagDefault.duint64 0
  | CType.tint => FlagDefault.dint 0
  | CType.tint64 => FlagDefault.dint64 0
  | CType.tfloat64 => FlagDefault.dfloat64 0
  | CType.tslice => FlagDefault.dstrSlice []
  | CType.tmap => FlagDefault.dstrSlice []
  | _ => FlagDefault.dstr ""

/-! ## Environment-variable transliteration (`New`) -/

/-- ASCII upper-casing of one character, as Go's `strings.ToUpper` acts on
the ASCII range (the names involved here are ASCII; Unicode case mapping
never touches `'.'`, `'-'` or `'_'`, which is all the proofs rely on). -/
def goUpperChar : Char → Char
  | 'a' => 'A' | 'b' => 'B' | 'c' => 'C' | 'd' => 'D' | 'e' => 'E' | 'f' => 'F'
  | 'g' => 'G' | 'h' => 'H' | 'i' => 'I' | 'j' => 'J' | 'k' => 'K' | 'l' => 'L'
  | 'm' => 'M' | 'n' => 'N' | 'o' => 'O' | 'p' => 'P' | 'q' => 'Q' | 'r' => 'R'
  | 's' => 'S' | 't' => 'T' | 'u' => 'U' | 'v' => 'V' | 'w' => 'W' | 'x' => 'X'
  | 'y' => 'Y' | 'z' => 'Z'
  | c => c

/-- The character replacement installed by
`viper.SetEnvKeyReplacer(strings.NewReplacer(".", "_", "-", "_"))`. -/
def replUnderscore (c : Char) : Char :=
  if c = '.' || c = '-' then '_' else c

/-- Go `strings.ToUpper` (character-wise, see `goUpperChar`). -/
def goToUpper (s : String) : String := String.mk (s.data.map goUpperChar)

/-- Apply the `.`/`-` → `_` replacer to a whole string. -/
def goReplaceDotDash (s : String) : String := String.mk (s.data.map replUnderscore)

/-- viper's `mergeWithEnvPrefix`: `ToUpper(envPrefix + "_" + key)` when the
prefix set by `SetEnvPrefix` is non-empty, else `ToUpper(key)`. -/
def mergeWithEnvPfx (name key : String) : String :=
  if name != "" then goToUpper (name ++ "_" ++ key) else goToUpper key

/-- The environment variable a key resolves from under the configuration made
by `New(name)` (`SetEnvKeyReplacer`, `SetEnvPrefix(name)`, `AutomaticEnv`):
viper's `getEnv` applies the replacer to `mergeWithEnvPrefix(key)`, i.e. to
the whole prefixed, upper-cased string. -/
def viperEnvVarName (name key : String) : String :=
  goReplaceDotDash (mergeWithEnvPfx name key)

/-- The claim's formula: the owning name as a prefix, joined by `_` to the
dotted name with its `.` and `-` replaced by `_`, all upper-cased — the
replacement applied to the dotted name only. -/
def specEnvVarName (name key : String) : String :=
  goToUpper (name ++ "_" ++ goReplaceDotDash key)

/-! ## Merged settings and `ReadFromFile` -/

/-- The viper instance's resolved layers, keyed by dotted name: values of
changed flags, environment values, the config layer (`MergeInConfig`
merges into it), and flag defaults. Lookup precedence is flag > env >
config > default. -/
structure ViperState where
  flagSettings : List (String × String)
  envSettings : List (String × String)
  configData : List (String × String)
  defaults : List (String × String)
deriving DecidableEq, Repr

/-- viper `Get`: first of flag value, environment value, config-layer value,
default. -/
def resolve (st : ViperState) (k : String) : Option String :=
  match lookupKV st.flagSettings k with
  | some v => some v
  | none =>
    match lookupKV st.envSettings k with
    | some v => some v
    | none =>
      match lookupKV st.configData k with
      | some v => some v
      | none => lookupKV st.defaults k

/-- `viper.MergeInConfig` after `SetConfigFile`: merge the file's key-values
into the config layer, newly read values winning within that layer. -/
def mergeInConfig (st : ViperState) (d : List (String × String)) : ViperState :=
  { st with configData := d ++ st.configData }

/-- `ReadFromFile` from the source: read the `config` flag's value `fv`; when
it is non-empty, set it as the config file and return the result of
`MergeInConfig` (`ffs` models the filesystem: per path, either the parsed
key-values or the open/parse error); when it is empty, return `nil` without
touching the settings. -/
def readFromFile (fv : String) (ffs : String → Except String (List (String × String)))
    (st : ViperState) : Res ViperState :=
  if fv != "" then
    match ffs fv with
    | Except.error e => Res.err e
    | Except.ok d => Res.ok (mergeInConfig st d)
  else
    Res.ok st

/-! ## Lemmas about the decode hook -/

theorem splitFirstEqChars_none_of_no_eq (l : List Char) (h : l.contains '=' = false) :
    splitFirstEqChars l = none := by
  induction l with
  | nil => rfl
  | cons c cs ih =>
    rw [List.contains_cons] at h
    have h1 : ('=' == c) = false := by
      cases hcc : ('=' == c) with
      | false => rfl
      | true => rw [hcc] at h; simp at h
    have h2 : cs.contains '=' = false := by
      cases hcc : cs.contains '=' with
      | false => rfl
      | true => rw [hcc] at h; simp at h
    have hc : ¬ (c = '=') := by
      intro hc; rw [hc] at h1; simp at h1
    simp [splitFirstEqChars, hc, ih h2]

theorem no_eq_of_splitFirstEqChars_none (l : List Char) (h : splitFirstEqChars l = none) :
    l.contains '=' = false := by
  induction l with
  | nil => rfl
  | cons c cs ih =>
    by_cases hc : c = '='
    · subst hc; simp [splitFirstEqChars] at h
    · rw [List.contains_cons]
      cases hs : splitFirstEqChars cs with
      | none =>
        have h2 := ih hs
        have h1 : ('=' == c) = false := by
          simp only [beq_eq_false_iff_ne, ne_eq]
          exact fun hh => hc hh.symm
        rw [h1, h2]
        rfl
      | some ab =>
        obtain ⟨a, b⟩ := ab
        simp [splitFirstEqChars, hc, hs] at h

theorem splitFirstEqChars_none_iff (l : List Char) :
    splitFirstEqChars l = none ↔ l.contains '=' = false :=
  ⟨no_eq_of_splitFirstEqChars_none l, splitFirstEqChars_none_of_no_eq l⟩

theorem goSplitN2Eq_cases (s : String) :
    (hasEqB s = false ∧ goSplitN2Eq s = [s] ∧ splitFirstEq s = none) ∨
      (∃ k v, hasEqB s = true ∧ goSplitN2Eq s = [k, v] ∧ splitFirstEq s = some (k, v)) := by
  cases hs : splitFirstEqChars s.data with
  | none =>
    left
    have := (splitFirstEqChars_none_iff s.data).mp hs
    exact ⟨this, by simp [goSplitN2Eq, hs], by simp [splitFirstEq, hs]⟩
  | some ab =>
    right
    obtain ⟨a, b⟩ := ab
    refine ⟨String.mk a, String.mk b, ?_, by simp [goSplitN2Eq, hs], by simp [splitFirstEq, hs]⟩
    cases hc : s.data.contains '=' with
    | false => rw [(splitFirstEqChars_none_iff s.data).mpr hc] at hs; cases hs
    | true => exact hc

theorem goBuildMapLoop_eq (sl : List String) (m : List (String × String)) :
    goBuildMapLoop m sl =
      match firstNoEq sl with
      | some s => Except.error ("Invalid format for input " ++ s)
      | none => Except.ok (buildFrom m sl) := by
  induction sl generalizing m with
  | nil => simp [goBuildMapLoop, firstNoEq, buildFrom]
  | cons s rest ih =>
    rcases goSplitN2Eq_cases s with ⟨hE, hSplit, _⟩ | ⟨k, v, hE, hSplit, hSF⟩
    · simp [goBuildMapLoop, hSplit, firstNoEq, hE]
    · simp only [goBuildMapLoop, hSplit, ih (mapInsert m k v)]
      have hfn : firstNoEq (s :: rest) = firstNoEq rest := by
        simp [firstNoEq, List.find?_cons, hE]
      have hbf : buildFrom m (s :: rest) = buildFrom (mapInsert m k v) rest := by
        simp [buildFrom, hSF]
      rw [hfn, hbf]

theorem lookupKV_nil (k : String) : lookupKV [] k = none := rfl

theorem lookupKV_cons (k0 v0 : String) (rest : List (String × String)) (k' : String) :
    lookupKV ((k0, v0) :: rest) k' = if k0 = k' then some v0 else lookupKV rest k' := by
  by_cases h : k0 = k'
  · simp [lookupKV, List.find?_cons, h]
  · simp [lookupKV, List.find?_cons, h]

theorem lookupKV_mapInsert (m : List (String × String)) (k v k' : String) :
    lookupKV (mapInsert m k v) k' = if k' = k then some v else lookupKV m k' := by
  induction m with
  | nil =>
    rw [show mapInsert [] k v = [(k, v)] from rfl, lookupKV_cons, lookupKV_nil]
    by_cases h : k' = k
    · simp [h]
    · have h2 : ¬ (k = k') := fun hh => h hh.symm
      simp [h, h2]
  | cons p rest ih =>
    obtain ⟨k0, v0⟩ := p
    by_cases h0 : k0 = k
    · subst h0
      rw [show mapInsert ((k0, v0) :: rest) k0 v = (k0, v) :: rest by simp [mapInsert],
        lookupKV_cons, lookupKV_cons]
      by_cases h : k' = k0
      · simp [h]
      · have h2 : ¬ (k0 = k') := fun hh => h hh.symm
        simp [h, h2]
    · rw [show mapInsert ((k0, v0) :: rest) k v = (k0, v0) :: mapInsert rest k v by
        simp [mapInsert, h0], lookupKV_cons, ih, lookupKV_cons]
      by_cases h1 : k0 = k'
      · subst h1
        simp [h0]
      · simp [h1]

theorem find?_append_eq {α : Type} (l₁ l₂ : List α) (p : α → Bool) :
    (l₁ ++ l₂).find? p =
      match l₁.find? p with
      | some x => some x
      | none => l₂.find? p := by
  induction l₁ with
  | nil => simp
  | cons a as ih =>
    by_cases h : p a
    · simp [List.find?_cons, h]
    · simp only [List.cons_append, List.find?_cons, h]
      simp only [Bool.not_eq_true] at h
      simp [h, ih]

theorem lookupKV_buildFrom (sl : List String) (m : List (String × String)) (k : String) :
    lookupKV (buildFrom m sl) k =
      match (specPairs sl).reverse.find? (fun p => p.1 == k) with
      | some p => some p.2
      | none => lookupKV m k := by
  induction sl generalizing m with
  | nil => simp [buildFrom, specPairs]
  | cons s rest ih =>
    cases hsf : splitFirstEq s with
    | none =>
      have hstep : buildFrom m (s :: rest) = buildFrom m rest := by
        simp [buildFrom, hsf]
      have hpairs : specPairs (s :: rest) = specPairs rest := by
        simp [specPairs, hsf]
      rw [hstep, hpairs, ih m]
    | some p =>
      obtain ⟨pk, pv⟩ := p
      have hstep : buildFrom m (s :: rest) = buildFrom (mapInsert m pk pv) rest := by
        simp [buildFrom, hsf]
      rw [hstep, ih (mapInsert m pk pv)]
      have hpairs : specPairs (s :: rest) = (pk, pv) :: specPairs rest := by
        simp [specPairs, hsf]
      rw [hpairs, List.reverse_cons, find?_append_eq]
      cases hf : (specPairs rest).reverse.find? (fun p => p.1 == k) with
      | some q => simp
      | none =>
        simp only [List.find?_singleton]
        by_cases hk : pk = k
        · subst hk
          simp [lookupKV_mapInsert]
        · have hk2 : ¬ (k = pk) := fun hh => hk (Eq.symm hh)
          simp [lookupKV_mapInsert, hk, hk2]

/-! ## Claim C1 -/

/-- C1: `Unmarshal` is claimed to return a non-nil error whenever the decode
of the merged settings fails structurally. In the source the result of
`decoder.Decode(mgr.viper.AllSettings())` is discarded and `nil` is
returned: for every failing decode outcome, `Unmarshal` returns `ok` (no
error, and also no panic). This exhibits the code bug the claim trips on. -/
theorem unmarshal_discards_decode_error (e : String) :
    unmarshal (Except.ok ()) (Except.error e) = Res.ok ()
    ∧ isErrRes (unmarshal (Except.ok ()) (Except.error e)) = false
    ∧ isFatalRes (unmarshal (Except.ok ()) (Except.error e)) = false :=
  ⟨rfl, rfl, rfl⟩

/-! ## Claim C2 -/

/-- C2: on a `[]string` source and `map[string]string` target, when every
element contains an `'='`, the hook returns (without error) exactly the map
obtained by splitting each element at its first `'='`, a later element's
value overwriting an earlier one's for the same key (last write wins). -/
theorem hook_last_write_wins (sl : List String) (k : String)
    (h : ∀ s ∈ sl, hasEqB s = true) :
    stringSliceToStringMapHookFunc typeStringSlice typeStringMap (GoValue.vstrSlice sl)
        = Res.ok (GoValue.vstrMap (goBuildMapTotal sl))
    ∧ lookupKV (goBuildMapTotal sl) k = specLastWins sl k := by
  constructor
  · have hfn : firstNoEq sl = none := by
      apply List.find?_eq_none.mpr
      intro s hs
      simp [h s hs]
    simp only [stringSliceToStringMapHookFunc,
      show hookTypesMatch typeStringSlice typeStringMap = true from rfl, if_true]
    rw [goBuildMapLoop_eq, hfn]
    rfl
  · rw [goBuildMapTotal, lookupKV_buildFrom, specLastWins]
    cases hf : (specPairs sl).reverse.find? (fun p => p.1 == k) with
    | some q => simp
    | none => simp [lookupKV_nil]

/-- Witness for C2 at the claim's own examples: `["a=1","b=2"]` yields
`{a:"1", b:"2"}` and `["a=1","a=2"]` yields `{a:"2"}`. -/
theorem hook_last_write_wins_witness :
    (stringSliceToStringMapHookFunc typeStringSlice typeStringMap (GoValue.vstrSlice ["a=1", "b=2"])
        = Res.ok (GoValue.vstrMap (goBuildMapTotal ["a=1", "b=2"]))
      ∧ lookupKV (goBuildMapTotal ["a=1", "b=2"]) "b" = specLastWins ["a=1", "b=2"] "b")
    ∧ (stringSliceToStringMapHookFunc typeStringSlice typeStringMap (GoValue.vstrSlice ["a=1", "a=2"])
        = Res.ok (GoValue.vstrMap (goBuildMapTotal ["a=1", "a=2"]))
      ∧ lookupKV (goBuildMapTotal ["a=1", "a=2"]) "a" = specLastWins ["a=1", "a=2"] "a")
    ∧ goBuildMapTotal ["a=1", "b=2"] = [("a", "1"), ("b", "2")]
    ∧ goBuildMapTotal ["a=1", "a=2"] = [("a", "2")]
    ∧ specLastWins ["a=1", "a=2"] "a" = some "2" :=
  ⟨hook_last_write_wins ["a=1", "b=2"] "b" (by decide),
   hook_last_write_wins ["a=1", "a=2"] "a" (by decide),
   by decide, by decide, by decide⟩

/-! ## Claim C3 -/

/-- C3 counterexample: the claim says an element with more than one `'='`
also errors; but `strings.SplitN(s, "=", 2)` always yields two parts when
the element contains at least one `'='`, so `"a=b=c"` (two `'='`) decodes
without error to `{a: "b=c"}`. -/
theorem hook_two_eq_signs_no_error :
    countEq "a=b=c" ≠ 1
    ∧ stringSliceToStringMapHookFunc typeStringSlice typeStringMap (GoValue.vstrSlice ["a=b=c"])
        = Res.ok (GoValue.vstrMap [("a", "b=c")])
    ∧ isErrRes (stringSliceToStringMapHookFunc typeStringSlice typeStringMap
        (GoValue.vstrSlice ["a=b=c"])) = false := by
  refine ⟨by decide, by decide, by decide⟩

/-- C3 (amended): the hook errors iff some element contains NO `'='` (an
element with one or more `'='` is split at the first one); the error names
the first offending element. -/
theorem hook_error_iff_elem_without_eq (sl : List String) :
    stringSliceToStringMapHookFunc typeStringSlice typeStringMap (GoValue.vstrSlice sl) =
      match firstNoEq sl with
      | some s => Res.err ("Invalid format for input " ++ s)
      | none => Res.ok (GoValue.vstrMap (goBuildMapTotal sl)) := by
  simp only [stringSliceToStringMapHookFunc,
    show hookTypesMatch typeStringSlice typeStringMap = true from rfl, if_true]
  rw [goBuildMapLoop_eq]
  cases hf : firstNoEq sl <;> simp [goBuildMapTotal]

/-! ## Claim C10 -/

/-- C10: on every type pair that is not ([]string → map with string values),
the hook returns its input unchanged with no error. -/
theorem hook_identity_on_non_matching (f t : RType) (data : GoValue)
    (h : hookTypesMatch f t = false) :
    stringSliceToStringMapHookFunc f t data = Res.ok data := by
  simp [stringSliceToStringMapHookFunc, h]

/-- Witness for C10: a `[]string` source decoded into a `[]string` target
(target not a map) passes through unchanged. -/
theorem hook_identity_on_non_matching_witness :
    hookTypesMatch typeStringSlice typeStringSlice = false
    ∧ stringSliceToStringMapHookFunc typeStringSlice typeStringSlice (GoValue.vstrSlice ["a=1"])
        = Res.ok (GoValue.vstrSlice ["a=1"]) :=
  ⟨by decide, hook_identity_on_non_matching typeStringSlice typeStringSlice
    (GoValue.vstrSlice ["a=1"]) (by decide)⟩

/-! ## Lemmas about the struct walk -/

theorem isExceptError_map {α β : Type} (f : α → β) (x : Except String α) :
    isExceptError (x.map f) = isExceptError x := by
  cases x <;> rfl

theorem mem_of_map_cons {F : PFlag} {r : Except String (List PFlag)} {flags : List PFlag}
    (h : Except.map (fun fs => F :: fs) r = Except.ok flags) :
    ∃ fs, r = Except.ok fs ∧ flags = F :: fs := by
  cases r with
  | error e => simp [Except.map] at h
  | ok fs =>
    simp [Except.map] at h
    exact ⟨fs, rfl, h.symm⟩

theorem joinNameGo_eq_append (pfx tag : String) (hp : pfx ≠ "") :
    joinNameGo pfx tag = (pfx ++ ".") ++ tag := by
  simp [joinNameGo, bne_iff_ne, hp]

theorem joinNameGo_ne_empty (pfx tag : String) (hp : pfx ≠ "") :
    joinNameGo pfx tag ≠ "" := by
  rw [joinNameGo_eq_append pfx tag hp]
  intro hh
  have hlen := congrArg String.length hh
  have hdot : ("." : String).length = 1 := rfl
  simp [String.length_append, hdot] at hlen

theorem listPre_refl_append (a b : List Char) : listPre a (a ++ b) = true := by
  induction a with
  | nil => rfl
  | cons c cs ih => simp [listPre, ih]

theorem listPre_trans (a b c : List Char)
    (h1 : listPre a b = true) (h2 : listPre b c = true) : listPre a c = true := by
  induction a generalizing b c with
  | nil => rfl
  | cons x xs ih =>
    cases b with
    | nil => simp [listPre] at h1
    | cons y ys =>
      cases c with
      | nil => simp [listPre] at h2
      | cons z zs =>
        simp only [listPre, Bool.and_eq_true, beq_iff_eq] at h1 h2 ⊢
        exact ⟨h1.1.trans h2.1, ih ys zs h1.2 h2.2⟩

theorem strStartsWith_append (a b : String) : strStartsWith a (a ++ b) = true := by
  simp only [strStartsWith, String.data_append]
  exact listPre_refl_append a.data b.data

theorem strStartsWith_trans (a b c : String)
    (h1 : strStartsWith a b = true) (h2 : strStartsWith b c = true) :
    strStartsWith a c = true :=
  listPre_trans a.data b.data c.data h1 h2

/-- A field whose `name` tag is empty or `-` and whose kind is not a struct
is skipped: the walk continues on the remaining fields unchanged. -/
theorem parseStructToFlags_cons_skip (pfx tag desc short : String) (typ : CType)
    (rest : List CField)
    (hguard : ((tag == "" || tag == "-") && !(isStructType typ)) = true) :
    parseStructToFlags pfx (CField.mk tag desc short typ :: rest)
      = parseStructToFlags pfx rest := by
  rw [parseStructToFlags.eq_def]
  exact if_pos hguard

/-- The walk panics exactly when it reaches a named field of unsupported
kind (searching nested structs recursively). -/
theorem isExceptError_parseStructToFlags (p : String) (fields : List CField) :
    isExceptError (parseStructToFlags p fields) = hasUnsupportedField fields := by
  induction p, fields using parseStructToFlags.induct with
  | case1 p => simp [parseStructToFlags, hasUnsupportedField, isExceptError]
  | case2 pfx tag desc short typ rest hguard ih =>
    rw [parseStructToFlags_cons_skip pfx tag desc short typ rest hguard, ih]
    cases typ <;> simp [hasUnsupportedField, hguard]
  | case3 pfx tag desc short rest hguard ih =>
    simp only [parseStructToFlags, hasUnsupportedField]
    rw [if_neg hguard, if_neg hguard]
    simp [isExceptError_map, ih]
  | case4 pfx tag desc short rest hguard ih =>
    simp only [parseStructToFlags, hasUnsupportedField]
    rw [if_neg hguard, if_neg hguard]
    simp [isExceptError_map, ih]
  | case5 pfx tag desc short rest hguard ih =>
    simp only [parseStructToFlags, hasUnsupportedField]
    rw [if_neg hguard, if_neg hguard]
    simp [isExceptError_map, ih]
  | case6 pfx tag desc short rest hguard ih =>
    simp only [parseStructToFlags, hasUnsupportedField]
    rw [if_neg hguard, if_neg hguard]
    simp [isExceptError_map, ih]
  | case7 pfx tag desc short rest hguard ih =>
    simp only [parseStructToFlags, hasUnsupportedField]
    rw [if_neg hguard, if_neg hguard]
    simp [isExceptError_map, ih]
  | case8 pfx tag desc short rest hguard ih =>
    simp only [parseStructToFlags, hasUnsupportedField]
    rw [if_neg hguard, if_neg hguard]
    simp [isExceptError_map, ih]
  | case9 pfx tag desc short rest hguard ih =>
    simp only [parseStructToFlags, hasUnsupportedField]
    rw [if_neg hguard, if_neg hguard]
    simp [isExceptError_map, ih]
  | case10 pfx tag desc short rest hguard ih =>
    simp only [parseStructToFlags, hasUnsupportedField]
    rw [if_neg hguard, if_neg hguard]
    simp [isExceptError_map, ih]
  | case11 pfx tag desc short rest hguard ih =>
    simp only [parseStructToFlags, hasUnsupportedField]
    rw [if_neg hguard, if_neg hguard]
    simp [isExceptError_map, ih]
  | case12 pfx tag desc short rest children e hx hguard ih =>
    have hc : hasUnsupportedField children = true := by
      rw [← ih, hx]; rfl
    simp only [parseStructToFlags, hasUnsupportedField]
    rw [if_neg hguard, if_neg hguard]
    simp [hx, hc, isExceptError]
  | case13 pfx tag desc short rest children rs1 hx1 e hx hguard ih2 ih1 =>
    have hc : hasUnsupportedField children = false := by
      rw [← ih2, hx1]; rfl
    have hr : hasUnsupportedField rest = true := by
      rw [← ih1, hx]; rfl
    simp only [parseStructToFlags, hasUnsupportedField]
    rw [if_neg hguard, if_neg hguard]
    simp [hx1, hx, hc, hr, isExceptError]
  | case14 pfx tag desc short rest children rs1 hx1 rs hx hguard ih2 ih1 =>
    have hc : hasUnsupportedField children = false := by
      rw [← ih2, hx1]; rfl
    have hr : hasUnsupportedField rest = false := by
      rw [← ih1, hx]; rfl
    simp only [parseStructToFlags, hasUnsupportedField]
    rw [if_neg hguard, if_neg hguard]
    simp [hx1, hx, hc, hr, isExceptError]
  | case15 pfx tag desc short rest k hguard =>
    simp only [parseStructToFlags, hasUnsupportedField]
    rw [if_neg hguard, if_neg hguard]
    simp [isExceptError]

/-- Every flag registered under a non-empty prefix has a dotted name that
starts with that prefix followed by `'.'`. -/
theorem parse_flag_names_extend_pfx (p : String) (fields : List CField) :
    ∀ flags, parseStructToFlags p fields = Except.ok flags → p ≠ "" →
      ∀ fl ∈ flags, strStartsWith (p ++ ".") fl.name = true := by
  induction p, fields using parseStructToFlags.induct with
  | case1 p =>
    intro flags h hp fl hfl
    simp only [parseStructToFlags, Except.ok.injEq] at h
    subst h
    simp at hfl
  | case2 pfx tag desc short typ rest hguard ih =>
    intro flags h hp fl hfl
    rw [parseStructToFlags_cons_skip pfx tag desc short typ rest hguard] at h
    exact ih flags h hp fl hfl
  | case3 pfx tag desc short rest hguard ih =>
    intro flags h hp fl hfl
    simp only [parseStructToFlags] at h
    rw [if_neg hguard] at h
    obtain ⟨fs, hr, hfe⟩ := mem_of_map_cons h
    subst hfe
    rcases List.mem_cons.mp hfl with hhead | htail
    · subst hhead
      show strStartsWith (pfx ++ ".") (joinNameGo pfx tag) = true
      rw [joinNameGo_eq_append pfx tag hp]
      exact strStartsWith_append (pfx ++ ".") tag
    · exact ih fs hr hp fl htail
  | case4 pfx tag desc short rest hguard ih =>
    intro flags h hp fl hfl
    simp only [parseStructToFlags] at h
    rw [if_neg hguard] at h
    obtain ⟨fs, hr, hfe⟩ := mem_of_map_cons h
    subst hfe
    rcases List.mem_cons.mp hfl with hhead | htail
    · subst hhead
      show strStartsWith (pfx ++ ".") (joinNameGo pfx tag) = true
      rw [joinNameGo_eq_append pfx tag hp]
      exact strStartsWith_append (pfx ++ ".") tag
    · exact ih fs hr hp fl htail
  | case5 pfx tag desc short rest hguard ih =>
    intro flags h hp fl hfl
    simp only [parseStructToFlags] at h
    rw [if_neg hguard] at h
    obtain ⟨fs, hr, hfe⟩ := mem_of_map_cons h
    subst hfe
    rcases List.mem_cons.mp hfl with hhead | htail
    · subst hhead
      show strStartsWith (pfx ++ ".") (joinNameGo pfx tag) = true
      rw [joinNameGo_eq_append pfx tag hp]
      exact strStartsWith_append (pfx ++ ".") tag
    · exact ih fs hr hp fl htail
  | case6 pfx tag desc short rest hguard ih =>
    intro flags h hp fl hfl
    simp only [parseStructToFlags] at h
    rw [if_neg hguard] at h
    obtain ⟨fs, hr, hfe⟩ := mem_of_map_cons h
    subst hfe
    rcases List.mem_cons.mp hfl with hhead | htail
    · subst hhead
      show strStartsWith (pfx ++ ".") (joinNameGo pfx tag) = true
      rw [joinNameGo_eq_append pfx tag hp]
      exact strStartsWith_append (pfx ++ ".") tag
    · exact ih fs hr hp fl htail
  | case7 pfx tag desc short rest hguard ih =>
    intro flags h hp fl hfl
    simp only [parseStructToFlags] at h
    rw [if_neg hguard] at h
    obtain ⟨fs, hr, hfe⟩ := mem_of_map_cons h
    subst hfe
    rcases List.mem_cons.mp hfl with hhead | htail
    · subst hhead
      show strStartsWith (pfx ++ ".") (joinNameGo pfx tag) = true
      rw [joinNameGo_eq_append pfx tag hp]
      exact strStartsWith_append (pfx ++ ".") tag
    · exact ih fs hr hp fl htail
  | case8 pfx tag desc short rest hguard ih =>
    intro flags h hp fl hfl
    simp only [parseStructToFlags] at h
    rw [if_neg hguard] at h
    obtain ⟨fs, hr, hfe⟩ := mem_of_map_cons h
    subst hfe
    rcases List.mem_cons.mp hfl with hhead | htail
    · subst hhead
      show strStartsWith (pfx ++ ".") (joinNameGo pfx tag) = true
      rw [joinNameGo_eq_append pfx tag hp]
      exact strStartsWith_append (pfx ++ ".") tag
    · exact ih fs hr hp fl htail
  | case9 pfx tag desc short rest hguard ih =>
    intro flags h hp fl hfl
    simp only [parseStructToFlags] at h
    rw [if_neg hguard] at h
    obtain ⟨fs, hr, hfe⟩ := mem_of_map_cons h
    subst hfe
    rcases List.mem_cons.mp hfl with hhead | htail
    · subst hhead
      show strStartsWith (pfx ++ ".") (joinNameGo pfx tag) = true
      rw [joinNameGo_eq_append pfx tag hp]
      exact strStartsWith_append (pfx ++ ".") tag
    · exact ih fs hr hp fl htail
  | case10 pfx tag desc short rest hguard ih =>
    intro flags h hp fl hfl
    simp only [parseStructToFlags] at h
    rw [if_neg hguard] at h
    obtain ⟨fs, hr, hfe⟩ := mem_of_map_cons h
    subst hfe
    rcases List.mem_cons.mp hfl with hhead | htail
    · subst hhead
      show strStartsWith (pfx ++ ".") (joinNameGo pfx tag) = true
      rw [joinNameGo_eq_append pfx tag hp]
      exact strStartsWith_append (pfx ++ ".") tag
    · exact ih fs hr hp fl htail
  | case11 pfx tag desc short rest hguard ih =>
    intro flags h hp fl hfl
    simp only [parseStructToFlags] at h
    rw [if_neg hguard] at h
    obtain ⟨fs, hr, hfe⟩ := mem_of_map_cons h
    subst hfe
    rcases List.mem_cons.mp hfl with hhead | htail
    · subst hhead
      show strStartsWith (pfx ++ ".") (joinNameGo pfx tag) = true
      rw [joinNameGo_eq_append pfx tag hp]
      exact strStartsWith_append (pfx ++ ".") tag
    · exact ih fs hr hp fl htail
  | case12 pfx tag desc short rest children e hx hguard ih =>
    intro flags h hp fl hfl
    simp only [parseStructToFlags] at h
    rw [if_neg hguard] at h
    simp only [hx] at h
    exact Except.noConfusion h
  | case13 pfx tag desc short rest children rs1 hx1 e hx hguard ih2 ih1 =>
    intro flags h hp fl hfl
    simp only [parseStructToFlags] at h
    rw [if_neg hguard] at h
    simp only [hx1, hx] at h
    exact Except.noConfusion h
  | case14 pfx tag desc short rest children rs1 hx1 rs hx hguard ih2 ih1 =>
    intro flags h hp fl hfl
    simp only [parseStructToFlags] at h
    rw [if_neg hguard] at h
    simp only [hx1, hx, Except.ok.injEq] at h
    subst h
    rcases List.mem_append.mp hfl with hleft | hright
    · have hp2 : joinNameGo pfx tag ≠ "" := joinNameGo_ne_empty pfx tag hp
      have hstart := ih2 rs1 hx1 hp2 fl hleft
      refine strStartsWith_trans (pfx ++ ".") (joinNameGo pfx tag ++ ".") fl.name ?_ hstart
      rw [joinNameGo_eq_append pfx tag hp, String.append_assoc]
      exact strStartsWith_append (pfx ++ ".") (tag ++ ".")
    · exact ih1 rs hx hp fl hright
  | case15 pfx tag desc short rest k hguard =>
    intro flags h hp fl hfl
    simp only [parseStructToFlags] at h
    rw [if_neg hguard] at h
    simp at h

/-! ## Claim C4 -/

/-- C4: a nested-struct field contributes exactly the union (in walk order)
of the flags of its children, computed with the parent's computed name —
`joinNameGo`, i.e. the name tag prefixed by the outer prefix joined with
`'.'` — as the new prefix, regardless of whether the field has a name tag;
and every flag coming from the children has a dotted name that extends the
parent's computed name joined with `'.'`. -/
theorem struct_field_yields_prefixed_children (pfx tag desc short : String)
    (children rest : List CField) (fs rs : List PFlag) (fl : PFlag)
    (hc : parseStructToFlags (joinNameGo pfx tag) children = Except.ok fs)
    (hr : parseStructToFlags pfx rest = Except.ok rs)
    (hp : joinNameGo pfx tag ≠ "")
    (hfl : fl ∈ fs) :
    parseStructToFlags pfx (CField.mk tag desc short (CType.tstruct children) :: rest)
        = Except.ok (fs ++ rs)
    ∧ strStartsWith (joinNameGo pfx tag ++ ".") fl.name = true := by
  constructor
  · have hng : ¬ (((tag == "" || tag == "-") && !(isStructType (CType.tstruct children))) = true) := by
      simp [isStructType]
    simp only [parseStructToFlags]
    rw [if_neg hng]
    simp [hc, hr]
  · exact parse_flag_names_extend_pfx (joinNameGo pfx tag) children fs hc hp fl hfl

/-- Witness for C4: a named nested struct (`server` under prefix `app`)
yields its child at `app.server.port`, and a tag-less nested struct under
prefix `app` still yields its child under the computed name `app.`. -/
theorem struct_field_yields_prefixed_children_witness :
    (parseStructToFlags "app"
        (CField.mk "server" "" "" (CType.tstruct [CField.mk "port" "d" "" CType.tint]) :: [])
        = Except.ok
          ([{ name := "app.server.port", shorthand := "", defVal := FlagDefault.dint 0, usage := "d" }] ++ [])
      ∧ strStartsWith (joinNameGo "app" "server" ++ ".")
          (PFlag.name { name := "app.server.port", shorthand := "", defVal := FlagDefault.dint 0, usage := "d" })
          = true)
    ∧ (parseStructToFlags "app"
        (CField.mk "" "" "" (CType.tstruct [CField.mk "port" "d" "" CType.tint]) :: [])
        = Except.ok
          ([{ name := "app..port", shorthand := "", defVal := FlagDefault.dint 0, usage := "d" }] ++ [])
      ∧ strStartsWith (joinNameGo "app" "" ++ ".")
          (PFlag.name { name := "app..port", shorthand := "", defVal := FlagDefault.dint 0, usage := "d" })
          = true) :=
  ⟨struct_field_yields_prefixed_children "app" "server" "" ""
      [CField.mk "port" "d" "" CType.tint] []
      [{ name := "app.server.port", shorthand := "", defVal := FlagDefault.dint 0, usage := "d" }] []
      { name := "app.server.port", shorthand := "", defVal := FlagDefault.dint 0, usage := "d" }
      (by simp [parseStructToFlags, joinNameGo, Except.map]) (by simp [parseStructToFlags])
      (by decide) (by simp),
   struct_field_yields_prefixed_children "app" "" "" ""
      [CField.mk "port" "d" "" CType.tint] []
      [{ name := "app..port", shorthand := "", defVal := FlagDefault.dint 0, usage := "d" }] []
      { name := "app..port", shorthand := "", defVal := FlagDefault.dint 0, usage := "d" }
      (by simp [parseStructToFlags, joinNameGo, Except.map]) (by simp [parseStructToFlags])
      (by decide) (by simp)⟩

/-! ## Claim C5 -/

/-- C5: a field of a supported primitive kind whose name tag is non-empty
and not `-` registers exactly one flag, named by the computed dotted name,
with the documented default for its kind (empty string / false / zero /
empty sequence). -/
theorem primitive_field_registers_one_flag (pfx tag desc short : String) (typ : CType)
    (rest : List CField)
    (h1 : tag ≠ "") (h2 : tag ≠ "-") (h3 : isPrimitiveKind typ = true) :
    parseStructToFlags pfx (CField.mk tag desc short typ :: rest) =
      (parseStructToFlags pfx rest).map
        (fun fs => { name := joinNameGo pfx tag, shorthand := short,
                     defVal := primDefault typ, usage := desc } :: fs) := by
  have hng : ¬ (((tag == "" || tag == "-") && !(isStructType typ)) = true) := by
    simp [h1, h2]
  cases typ <;> first
    | (simp only [parseStructToFlags]; rw [if_neg hng]; rfl)
    | simp [isPrimitiveKind] at h3

/-- Witness for C5: an `int`-kind field `port` under prefix `srv` registers
exactly the flag `srv.port` with default `0`. -/
theorem primitive_field_registers_one_flag_witness :
    parseStructToFlags "srv" (CField.mk "port" "the port" "p" CType.tint :: []) =
      (parseStructToFlags "srv" []).map
        (fun fs => { name := joinNameGo "srv" "port", shorthand := "p",
                     defVal := primDefault CType.tint, usage := "the port" } :: fs)
    ∧ parseStructToFlags "srv" [CField.mk "port" "the port" "p" CType.tint]
        = Except.ok
          [{ name := "srv.port", shorthand := "p", defVal := FlagDefault.dint 0, usage := "the port" }] :=
  ⟨primitive_field_registers_one_flag "srv" "port" "the port" "p" CType.tint []
      (by decide) (by decide) (by decide),
   by simp [parseStructToFlags, joinNameGo, Except.map]⟩

/-! ## Claim C6 -/

/-- C6: a field whose name tag is empty or `-` and whose kind is not a
struct registers no flag: the walk's result is exactly what it is without
the field. -/
theorem unnamed_nonstruct_field_not_registered (pfx tag desc short : String) (typ : CType)
    (rest : List CField)
    (h1 : tag = "" ∨ tag = "-") (h2 : isStructType typ = false) :
    parseStructToFlags pfx (CField.mk tag desc short typ :: rest)
      = parseStructToFlags pfx rest := by
  apply parseStructToFlags_cons_skip
  rcases h1 with h | h <;> subst h <;> simp [h2]

/-- Witness for C6: a `-`-named int field is skipped and the remaining
fields register exactly as without it. -/
theorem unnamed_nonstruct_field_not_registered_witness :
    parseStructToFlags "app" (CField.mk "-" "d" "" CType.tint :: [CField.mk "x" "" "" CType.tstring])
        = parseStructToFlags "app" [CField.mk "x" "" "" CType.tstring]
    ∧ parseStructToFlags "app" [CField.mk "x" "" "" CType.tstring]
        = Except.ok [{ name := "app.x", shorthand := "", defVal := FlagDefault.dstr "", usage := "" }] :=
  ⟨unnamed_nonstruct_field_not_registered "app" "-" "d" "" CType.tint
      [CField.mk "x" "" "" CType.tstring] (Or.inr rfl) rfl,
   by simp [parseStructToFlags, joinNameGo, Except.map]⟩

/-! ## Claim C7 -/

/-- C7: registration (`InitFlags`) aborts the process exactly in the two
schema-error cases — the description is not a struct, or the walk reaches a
named field of unsupported kind — while the binder's other operations
(`ReadFromFile`, `Unmarshal`) never abort, whatever their inputs do. -/
theorem registration_aborts_iff_schema_error (cfg : CType) (fv : String)
    (ffs : String → Except String (List (String × String))) (st : ViperState)
    (mkRes decRes : Except String Unit) :
    isFatalRes (initFlags cfg) = (!(isStructType cfg) || hasUnsupportedFieldTop cfg)
    ∧ isFatalRes (readFromFile fv ffs st) = false
    ∧ isFatalRes (unmarshal mkRes decRes) = false := by
  refine ⟨?_, ?_, ?_⟩
  · cases cfg with
    | tstruct fields =>
      rw [show hasUnsupportedFieldTop (CType.tstruct fields) = hasUnsupportedField fields from rfl,
        ← isExceptError_parseStructToFlags "" fields]
      cases hpe : parseStructToFlags "" fields with
      | error e => simp [initFlags, hpe, isFatalRes, isStructType, isExceptError]
      | ok flags => simp [initFlags, hpe, bindPFlags, isFatalRes, isStructType, isExceptError]
    | tstring => simp [initFlags, isFatalRes, isStructType, hasUnsupportedFieldTop]
    | tbool => simp [initFlags, isFatalRes, isStructType, hasUnsupportedFieldTop]
    | tuint => simp [initFlags, isFatalRes, isStructType, hasUnsupportedFieldTop]
    | tuint64 => simp [initFlags, isFatalRes, isStructType, hasUnsupportedFieldTop]
    | tint => simp [initFlags, isFatalRes, isStructType, hasUnsupportedFieldTop]
    | tint64 => simp [initFlags, isFatalRes, isStructType, hasUnsupportedFieldTop]
    | tfloat64 => simp [initFlags, isFatalRes, isStructType, hasUnsupportedFieldTop]
    | tslice => simp [initFlags, isFatalRes, isStructType, hasUnsupportedFieldTop]
    | tmap => simp [initFlags, isFatalRes, isStructType, hasUnsupportedFieldTop]
    | tother k => simp [initFlags, isFatalRes, isStructType, hasUnsupportedFieldTop]
  · unfold readFromFile
    split
    · cases ffs fv <;> rfl
    · rfl
  · cases mkRes <;> rfl

/-! ## Lemmas about the environment-variable transliteration -/

theorem goUpperChar_ne_dot (c : Char) (h : c ≠ '.') : goUpperChar c ≠ '.' := by
  unfold goUpperChar
  split <;> first | decide | exact h

theorem goUpperChar_ne_dash (c : Char) (h : c ≠ '-') : goUpperChar c ≠ '-' := by
  unfold goUpperChar
  split <;> first | decide | exact h

theorem replUnderscore_goUpperChar (c : Char) :
    replUnderscore (goUpperChar c) = goUpperChar (replUnderscore c) := by
  by_cases h1 : c = '.'
  · subst h1; decide
  · by_cases h2 : c = '-'
    · subst h2; decide
    · have hr : replUnderscore c = c := by simp [replUnderscore, h1, h2]
      rw [hr]
      have hu1 : goUpperChar c ≠ '.' := goUpperChar_ne_dot c h1
      have hu2 : goUpperChar c ≠ '-' := goUpperChar_ne_dash c h2
      simp [replUnderscore, hu1, hu2]

theorem map_eq_self_pointwise {f : Char → Char} :
    ∀ l : List Char, l.map f = l → ∀ c ∈ l, f c = c := by
  intro l
  induction l with
  | nil => intro _ c hc; cases hc
  | cons a as ih =>
    intro h c hc
    simp only [List.map_cons, List.cons.injEq] at h
    rcases List.mem_cons.mp hc with rfl | hmem
    · exact h.1
    · exact ih h.2 c hmem

/-! ## Claim C8 -/

/-- C8 counterexample: the claim's formula applies the `.`/`-` → `_`
replacement to the dotted name only; viper applies the replacer to the
whole prefixed, upper-cased key, so an owning name that itself contains a
`'-'` (binder `New("my-app")`) resolves `server.port` from
`MY_APP_SERVER_PORT`, not from the claimed `MY-APP_SERVER_PORT`. -/
theorem env_var_replacer_hits_owner_name :
    viperEnvVarName "my-app" "server.port" = "MY_APP_SERVER_PORT"
    ∧ specEnvVarName "my-app" "server.port" = "MY-APP_SERVER_PORT"
    ∧ viperEnvVarName "my-app" "server.port" ≠ specEnvVarName "my-app" "server.port" := by
  refine ⟨by decide, by decide, by decide⟩

/-- C8 (amended): whenever the binder's owning name itself contains no `'.'`
and no `'-'` (so the replacer cannot touch it), the environment variable a
dotted name resolves from is exactly the claimed transliteration: the
owning name, joined by `'_'` to the dotted name with every `'.'` and `'-'`
replaced by `'_'`, all upper-cased. -/
theorem env_var_name_matches_spec (name key : String)
    (hname : name ≠ "") (hclean : goReplaceDotDash name = name) :
    viperEnvVarName name key = specEnvVarName name key := by
  have hb : (name != "") = true := by simp [bne_iff_ne, hname]
  have hpt : ∀ c ∈ name.data, replUnderscore c = c := by
    have hdata : name.data.map replUnderscore = name.data := congrArg String.data hclean
    exact map_eq_self_pointwise name.data hdata
  unfold viperEnvVarName mergeWithEnvPfx specEnvVarName
  rw [if_pos hb]
  unfold goReplaceDotDash goToUpper
  apply congrArg String.mk
  show ((name ++ "_" ++ key).data.map goUpperChar).map replUnderscore
      = (name ++ "_" ++ String.mk (key.data.map replUnderscore)).data.map goUpperChar
  simp only [String.data_append, List.map_append, List.map_map]
  congr 1
  congr 1
  · apply List.map_congr_left
    intro c hc
    simp only [Function.comp_apply]
    rw [replUnderscore_goUpperChar c, hpt c hc]
  · apply List.map_congr_left
    intro c _
    simp only [Function.comp_apply]
    exact replUnderscore_goUpperChar c

/-- Witness for C8 (amended) at the claim's example: name `server.max-conns`
with owning prefix `APP` resolves from `APP_SERVER_MAX_CONNS`. -/
theorem env_var_name_matches_spec_witness :
    viperEnvVarName "APP" "server.max-conns" = specEnvVarName "APP" "server.max-conns"
    ∧ viperEnvVarName "APP" "server.max-conns" = "APP_SERVER_MAX_CONNS" :=
  ⟨env_var_name_matches_spec "APP" "server.max-conns" (by decide) (by decide),
   by decide⟩

/-! ## Claim C9 -/

theorem find?_eq_none_of_lookupKV_none (l : List (String × String)) (k : String)
    (h : lookupKV l k = none) : l.find? (fun p => p.1 == k) = none := by
  unfold lookupKV at h
  cases hf : l.find? (fun p => p.1 == k) with
  | some q => rw [hf] at h; simp at h
  | none => rfl

/-- C9: `ReadFromFile` is a no-op returning no error when the `config` flag
is empty; when it is non-empty, a failing load is returned as an error (not
a panic), a successful load merges the file's data into the config layer —
below flags and environment, so a key set by flag or environment resolves
as before, while a key set nowhere else resolves from the file. -/
theorem readFromFile_contract
    (ffs1 ffs2 : String → Except String (List (String × String)))
    (fv : String) (st : ViperState) (k k2 e : String) (d : List (String × String))
    (hfv : fv ≠ "")
    (h1 : ffs1 fv = Except.error e)
    (h2 : ffs2 fv = Except.ok d)
    (hk : (lookupKV st.flagSettings k).isSome = true ∨ (lookupKV st.envSettings k).isSome = true)
    (hk2a : lookupKV st.flagSettings k2 = none)
    (hk2b : lookupKV st.envSettings k2 = none)
    (hk2c : lookupKV st.configData k2 = none)
    (hk2d : lookupKV st.defaults k2 = none) :
    readFromFile "" ffs1 st = Res.ok st
    ∧ readFromFile fv ffs1 st = Res.err e
    ∧ readFromFile fv ffs2 st = Res.ok (mergeInConfig st d)
    ∧ resolve (mergeInConfig st d) k = resolve st k
    ∧ resolve (mergeInConfig st d) k2 = lookupKV d k2 := by
  have hb : (fv != "") = true := by simp [bne_iff_ne, hfv]
  refine ⟨rfl, ?_, ?_, ?_, ?_⟩
  · unfold readFromFile
    rw [if_pos hb, h1]
  · unfold readFromFile
    rw [if_pos hb, h2]
  · unfold resolve mergeInConfig
    rcases hk with hflag | henv
    · obtain ⟨v, hv⟩ := Option.isSome_iff_exists.mp hflag
      simp [hv]
    · obtain ⟨v, hv⟩ := Option.isSome_iff_exists.mp henv
      cases hf : lookupKV st.flagSettings k with
      | some w => simp [hf]
      | none => simp [hf, hv]
  · unfold resolve mergeInConfig
    simp only [hk2a, hk2b]
    have hcfg : lookupKV (d ++ st.configData) k2 = lookupKV d k2 := by
      unfold lookupKV
      rw [find?_append_eq]
      cases hx : d.find? (fun p => p.1 == k2) with
      | some q => simp
      | none => simp [find?_eq_none_of_lookupKV_none st.configData k2 hk2c]
    rw [hcfg]
    cases hd : lookupKV d k2 with
    | some v => simp
    | none => simp [hk2d]

/-- Witness for C9: a concrete state with `server.port` set by flag (9000)
and a file providing `server.port: 7000` and `extra: x` — the flag value
wins, the file-only key resolves from the file, an unreadable file's error
is returned, and an empty `config` flag changes nothing. -/
theorem readFromFile_contract_witness :
    readFromFile "" (fun _ => Except.error "open ./config.yml: no such file or directory")
        { flagSettings := [("server.port", "9000")], envSettings := [],
          configData := [], defaults := [("server.port", "0")] }
      = Res.ok
        { flagSettings := [("server.port", "9000")], envSettings := [],
          configData := [], defaults := [("server.port", "0")] }
    ∧ readFromFile "./config.yml" (fun _ => Except.error "open ./config.yml: no such file or directory")
        { flagSettings := [("server.port", "9000")], envSettings := [],
          configData := [], defaults := [("server.port", "0")] }
      = Res.err "open ./config.yml: no such file or directory"
    ∧ readFromFile "./config.yml" (fun _ => Except.ok [("server.port", "7000"), ("extra", "x")])
        { flagSettings := [("server.port", "9000")], envSettings := [],
          configData := [], defaults := [("server.port", "0")] }
      = Res.ok (mergeInConfig
          { flagSettings := [("server.port", "9000")], envSettings := [],
            configData := [], defaults := [("server.port", "0")] }
          [("server.port", "7000"), ("extra", "x")])
    ∧ resolve (mergeInConfig
          { flagSettings := [("server.port", "9000")], envSettings := [],
            configData := [], defaults := [("server.port", "0")] }
          [("server.port", "7000"), ("extra", "x")]) "server.port"
      = resolve
          { flagSettings := [("server.port", "9000")], envSettings := [],
            configData := [], defaults := [("server.port", "0")] } "server.port"
    ∧ resolve (mergeInConfig
          { flagSettings := [("server.port", "9000")], envSettings := [],
            configData := [], defaults := [("server.port", "0")] }
          [("server.port", "7000"), ("extra", "x")]) "extra"
      = lookupKV [("server.port", "7000"), ("extra", "x")] "extra" := by
  have h := readFromFile_contract
    (fun _ => Except.error "open ./config.yml: no such file or directory")
    (fun _ => Except.ok [("server.port", "7000"), ("extra", "x")])
    "./config.yml"
    { flagSettings := [("server.port", "9000")], envSettings := [],
      configData := [], defaults := [("server.port", "0")] }
    "server.port" "extra" "open ./config.yml: no such file or directory"
    [("server.port", "7000"), ("extra", "x")]
    (by decide) rfl rfl (by decide) (by decide) (by decide) (by decide) (by decide)
  exact h

end Dry
